import Mathlib

/-!
Verification of the Transparent-Padder padding pipeline (src/pad_alpha.py).

The pipeline fills invalid (transparent or outside-mask) pixels of an RGBA
image from nearby valid pixels: a bounded-radius weighted-average fill
(smooth_pad), an exact nearest-valid-pixel fill (flood_fill_pad), an
alpha-falloff stage (the fade block of pad_image), resolution-adaptive
parameter selection (auto_set_params), and external-mask loading
(load_mask_image).

Modelling conventions:
* an image is a height times width grid of pixels with 4 natural-number
  channels (R = 0, G = 1, B = 2, A = 3), each in 0..255;
* the float32 window sums of smooth_pad are sums of 8-bit integers times 0/1
  weights, hence integer-valued and exact; the float quotient followed by the
  uint8 cast (truncation toward zero of a nonnegative value) is natural-number
  division, so smooth_pad is modelled entirely over the naturals;
* scipy.ndimage.distance_transform_edt returns, for every pixel, the index of
  an exactly nearest valid pixel (Euclidean metric) with an
  implementation-defined tie-break; it is modelled by nearestValid, which
  picks the first nearest valid position in row-major order.  No theorem
  below depends on the tie-break.  When the mask has no valid pixel the
  indices scipy returns are implementation-defined but always in bounds;
  that case is modelled by reading the pixel itself, which agrees with the
  source whenever every candidate read yields the same value (as in the
  all-invalid scenarios used below, where the fill stage has zeroed every
  RGB channel first);
* scipy.ndimage.gaussian_filter is a separable correlation with the
  normalized discrete Gaussian kernel truncated at radius int(4 sigma + 0.5),
  with reflect boundary handling.  Its weights are irrational, so the blur is
  modelled as a correlation with an arbitrary finite kernel K of radius R
  (reflect boundary as in scipy); the theorems about the fade stage hold for
  every kernel;
* float64 arithmetic of auto_set_params is modelled by exact rational
  arithmetic (exact for all realistic dimensions, as 3 * maxDim < 2^53), and
  Python round-to-1-decimal uses round-half-to-even, modelled by
  roundHalfEven.
-/

namespace PadAlpha

/-- An RGBA image: a height times width grid of pixels, each with 4
natural-number channels (R, G, B, A), intended range 0..255. -/
abbrev Image (h w : ℕ) := Fin h → Fin w → Fin 4 → ℕ

/-- A validity mask over the same grid: true marks a valid pixel. -/
abbrev Mask (h w : ℕ) := Fin h → Fin w → Bool

/-- Zero-padded lookup at integer coordinates: the value of f inside bounds
and 0 outside.  Models the constant-0 boundary (mode=constant, cval=0.0) of
generic_filter in smooth_pad. -/
def atZ {h w : ℕ} (f : Fin h → Fin w → ℕ) (i j : ℤ) : ℕ :=
  if hi : 0 ≤ i ∧ i < h then
    if hj : 0 ≤ j ∧ j < w then
      f ⟨i.toNat, by omega⟩ ⟨j.toNat, by omega⟩
    else 0
  else 0

/-- Offsets -r, ..., r spanning a window of side 2r+1. -/
def offsets (r : ℕ) : List ℤ := (List.range (2 * r + 1)).map (fun k => (k : ℤ) - r)

/-- Sum of f over the square window of side 2r+1 centered at (i, j), with the
zero-padded boundary.  Models generic_filter(..., np.sum, size=2*radius+1,
mode=constant, cval=0.0). -/
def windowSum {h w : ℕ} (r : ℕ) (f : Fin h → Fin w → ℕ) (i : Fin h) (j : Fin w) : ℕ :=
  ((offsets r).map (fun di =>
    ((offsets r).map (fun dj =>
      atZ f ((i.val : ℤ) + di) ((j.val : ℤ) + dj))).sum)).sum

/-- Window sum of the 0/1 validity weights: sum_w in smooth_pad. -/
def weightSum {h w : ℕ} (mask : Mask h w) (r : ℕ) (i : Fin h) (j : Fin w) : ℕ :=
  windowSum r (fun a b => if mask a b then 1 else 0) i j

/-- Window sum of channel c masked by validity: sum_c in smooth_pad
(channel * weight_mask summed over the window). -/
def colorSum {h w : ℕ} (data : Image h w) (mask : Mask h w) (c : Fin 4) (r : ℕ)
    (i : Fin h) (j : Fin w) : ℕ :=
  windowSum r (fun a b => if mask a b then data a b c else 0) i j

/-- The weighted-average fill, from smooth_pad in src/pad_alpha.py.  Valid
pixels and the alpha channel are copied; an invalid pixel gets, per RGB
channel, the truncated quotient sum_c / sum_w where sum_w is positive, and 0
where sum_w = 0 (np.divide with out=np.zeros_like and where=sum_w > 0). -/
def smooth_pad {h w : ℕ} (data : Image h w) (mask : Mask h w) (radius : ℕ) : Image h w :=
  fun i j c =>
    if c.val = 3 then data i j c
    else if mask i j then data i j c
    else if 0 < weightSum mask radius i j then
      colorSum data mask c radius i j / weightSum mask radius i j
    else 0

/-- Row-major list of all grid positions. -/
def allPositions (h w : ℕ) : List (Fin h × Fin w) :=
  (List.finRange h).flatMap (fun i => (List.finRange w).map (fun j => (i, j)))

/-- Positions where the mask is true, in row-major order. -/
def validPositions {h w : ℕ} (mask : Mask h w) : List (Fin h × Fin w) :=
  (allPositions h w).filter (fun p => mask p.1 p.2)

/-- Squared Euclidean distance between two grid positions. -/
def sqDist {h w : ℕ} (p q : Fin h × Fin w) : ℤ :=
  ((p.1.val : ℤ) - (q.1.val : ℤ)) ^ 2 + ((p.2.val : ℤ) - (q.2.val : ℤ)) ^ 2

/-- Nearest valid position to p under Euclidean distance, or none when the
mask has no valid pixel.  Models the index pair distance_transform_edt
returns for p; ties are broken by the first nearest position in row-major
order (the tie-break of scipy is implementation-defined; no theorem below
depends on it). -/
def nearestValid {h w : ℕ} (mask : Mask h w) (p : Fin h × Fin w) :
    Option (Fin h × Fin w) :=
  (validPositions mask).foldl
    (fun acc q =>
      match acc with
      | none => some q
      | some b => if sqDist p q < sqDist p b then some q else acc)
    none

/-- The nearest-valid-pixel fill, from flood_fill_pad in src/pad_alpha.py.
Valid pixels and the alpha channel are copied; an invalid pixel gets the RGB
of its nearest valid pixel.  The none branch (mask with no valid pixel, where
the indices scipy returns are implementation-defined but in bounds) is
modelled by reading the pixel itself; this agrees with the source whenever
every in-bounds read yields the same value. -/
def flood_fill_pad {h w : ℕ} (data : Image h w) (mask : Mask h w) : Image h w :=
  fun i j c =>
    if c.val = 3 then data i j c
    else if mask i j then data i j c
    else
      match nearestValid mask (i, j) with
      | some q => data q.1 q.2 c
      | none => data i j c

/-- Clamp q to the interval [lo, hi]: min(hi, max(lo, q)). -/
def clampQ (lo hi q : ℚ) : ℚ := min hi (max lo q)

/-- Round to the nearest integer, ties to the even integer, as Python round
does on floats. -/
def roundHalfEven (q : ℚ) : ℤ :=
  if q - ⌊q⌋ = 1 / 2 then (if ⌊q⌋ % 2 = 0 then ⌊q⌋ else ⌊q⌋ + 1) else round q

/-- Resolution-adaptive parameters, from auto_set_params in src/pad_alpha.py:
radius = max(2, int(max_dim / 512 * 3)) and
sigma = round(min(10.0, max(1.0, max_dim / 1024 * 3)), 1).
Python int() truncates toward zero, which on these nonnegative exact values
is natural-number division; round(x, 1) is roundHalfEven of 10 x over 10. -/
def auto_set_params (w h : ℕ) : ℕ × ℚ :=
  let maxDim : ℕ := max w h
  (max 2 (3 * maxDim / 512),
   (roundHalfEven (10 * clampQ 1 10 ((maxDim : ℚ) / 1024 * 3)) : ℚ) / 10)

/-- Modelled from the wording of the specification, for comparison with
auto_set_params: radius = max(2, floor(maxDim / 512 * 3)) and
sigma = clamp(round(maxDim / 1024 * 3, 1 decimal), 1.0, 10.0), rounding at
one decimal with ties to even as the source round does. -/
def auto_params_spec (maxDim : ℕ) : ℕ × ℚ :=
  (max 2 ⌊(maxDim : ℚ) / 512 * 3⌋₊,
   clampQ 1 10 ((roundHalfEven (10 * ((maxDim : ℚ) / 1024 * 3)) : ℚ) / 10))

/-- Reflected index into 0..n-1 for the reflect boundary mode of scipy
(d c b a | a b c d | d c b a), period 2n. -/
def reflectFin (n : ℕ) (hn : 0 < n) (i : ℤ) : Fin n :=
  if hm : (i % (2 * (n : ℤ))).toNat < n then ⟨(i % (2 * (n : ℤ))).toNat, hm⟩
  else ⟨2 * n - 1 - (i % (2 * (n : ℤ))).toNat, by omega⟩

/-- Lookup with reflect boundary handling; 0 on an empty grid (never reached
by the pipeline, whose images have positive dimensions). -/
def reflectGet {h w : ℕ} (f : Fin h → Fin w → ℚ) (i j : ℤ) : ℚ :=
  if hh : 0 < h then
    if hw : 0 < w then f (reflectFin h hh i) (reflectFin w hw j) else 0
  else 0

/-- Correlation of f with a finite kernel K of radius R, reflect boundary.
Models scipy.ndimage.gaussian_filter(f, sigma), whose kernel is the
normalized discrete Gaussian truncated at radius int(4 sigma + 0.5); the
kernel weights are irrational, so the kernel is kept as a parameter and the
fade-stage theorems hold for every kernel. -/
def gaussian_filter {h w : ℕ} (R : ℕ) (K : ℤ → ℤ → ℚ) (f : Fin h → Fin w → ℚ) :
    Fin h → Fin w → ℚ :=
  fun i j =>
    ((offsets R).map (fun di =>
      ((offsets R).map (fun dj =>
        K di dj * reflectGet f ((i.val : ℤ) + di) ((j.val : ℤ) + dj))).sum)).sum

/-- Input field of the alpha blur: 1 - fade_mask, that is, the 0/1 indicator
of fully opaque pixels (alpha = 255), as a rational field. -/
def fadeField {h w : ℕ} (alpha : Fin h → Fin w → ℕ) : Fin h → Fin w → ℚ :=
  fun i j => 1 - (if alpha i j < 255 then (1 : ℚ) else 0)

/-- The blurred field: distance = gaussian_filter(1 - fade_mask, sigma). -/
def fadeDistance {h w : ℕ} (R : ℕ) (K : ℤ → ℤ → ℚ) (alpha : Fin h → Fin w → ℕ) :
    Fin h → Fin w → ℚ :=
  gaussian_filter R K (fadeField alpha)

/-- Row-major list of the values of a rational field over the grid. -/
def gridVals {h w : ℕ} (f : Fin h → Fin w → ℚ) : List ℚ :=
  (allPositions h w).map (fun p => f p.1 p.2)

/-- Minimum of a field over the grid (0 on an empty grid): distance.min(). -/
def gridMin {h w : ℕ} (f : Fin h → Fin w → ℚ) : ℚ :=
  match gridVals f with
  | [] => 0
  | x :: xs => xs.foldl min x

/-- Maximum of a field over the grid (0 on an empty grid): distance.max(). -/
def gridMax {h w : ℕ} (f : Fin h → Fin w → ℚ) : ℚ :=
  match gridVals f with
  | [] => 0
  | x :: xs => xs.foldl max x

/-- Clip to [0, 1]: np.clip(q, 0, 1) = minimum(maximum(q, 0), 1). -/
def clip01 (q : ℚ) : ℚ := min 1 (max 0 q)

/-- The alpha-fade stage, from the alpha block of pad_image (lines 130-134 of
src/pad_alpha.py): normalized = clip((distance - min) / (max - min), 0, 1)
and faded = maximum(alpha, normalized * 255) cast to uint8 (truncation of a
nonnegative value, hence the rational floor).  When max - min = 0 the source
computes 0 / 0 = NaN elementwise; np.clip and np.maximum propagate NaN and
the uint8 cast of NaN is platform-undefined, so the faded alpha has no
defined value: that case is modelled as none. -/
def alpha_fade {h w : ℕ} (R : ℕ) (K : ℤ → ℤ → ℚ) (alpha : Fin h → Fin w → ℕ) :
    Option (Fin h → Fin w → ℕ) :=
  if gridMax (fadeDistance R K alpha) - gridMin (fadeDistance R K alpha) = 0 then none
  else
    some (fun i j =>
      (⌊max ((alpha i j : ℚ))
          (clip01 ((fadeDistance R K alpha i j - gridMin (fadeDistance R K alpha)) /
              (gridMax (fadeDistance R K alpha) - gridMin (fadeDistance R K alpha))) *
            255)⌋).toNat)

/-- Errors surfaced by the modelled core.  The source reports the mask-size
mismatch by raising ValueError in load_mask_image and exiting; decode and
file-system failures belong to the excluded I/O collaborators. -/
inductive PadError where
  | maskSizeMismatch

/-- Mask source: the alpha channel of the image itself, or an external
grayscale mask image with its own dimensions. -/
inductive MaskMode where
  | alphaDriven
  | externalMask (mh mw : ℕ) (maskImg : Fin mh → Fin mw → ℕ)

/-- Result of a successful run: the RGB grid, and the alpha grid when it is
defined (none exactly when the degenerate fade normalization leaves the
alpha bytes platform-undefined). -/
structure PadOutput (h w : ℕ) where
  rgb : Fin h → Fin w → Fin 3 → ℕ
  alpha : Option (Fin h → Fin w → ℕ)

/-- Embedding of an RGB channel index into the RGBA channel index. -/
def rgbIdx (c : Fin 3) : Fin 4 := ⟨c.val, by omega⟩

/-- RGB part of an RGBA image. -/
def imgRGB {h w : ℕ} (data : Image h w) : Fin h → Fin w → Fin 3 → ℕ :=
  fun i j c => data i j (rgbIdx c)

/-- Mask loading and validation, from load_mask_image in src/pad_alpha.py:
require the mask dimensions to equal the image dimensions exactly, then
threshold strictly above 128.  A size mismatch raises ValueError in the
source (caught and turned into exit(1)); decoding itself is external I/O. -/
def load_mask_image (mh mw : ℕ) (maskImg : Fin mh → Fin mw → ℕ) (h w : ℕ) :
    Except PadError (Mask h w) :=
  if hd : mh = h ∧ mw = w then
    Except.ok (fun i j =>
      decide (128 < maskImg ⟨i.val, by omega⟩ ⟨j.val, by omega⟩))
  else Except.error PadError.maskSizeMismatch

/-- Parameter resolution of pad_image: auto parameters when requested or when
neither radius nor blur_sigma is given, then the defaults radius = 3 and
sigma = 3.0 for any value still missing. -/
def resolveParams (w h : ℕ) (radius : Option ℕ) (blur_sigma : Option ℚ)
    (autoParams : Bool) : ℕ × ℚ :=
  if autoParams || (radius.isNone && blur_sigma.isNone) then
    (radius.getD (auto_set_params w h).1, blur_sigma.getD (auto_set_params w h).2)
  else
    (radius.getD 3, blur_sigma.getD 3)

/-- RGB zeroing of the AlphaDriven path: data[alpha < 255, :3] = 0. -/
def zeroTransparent {h w : ℕ} (data : Image h w) : Image h w :=
  fun i j c => if data i j 3 < 255 ∧ c.val < 3 then 0 else data i j c

/-- The padding pipeline, from pad_image in src/pad_alpha.py, starting from
the decoded RGBA buffer (file I/O is external).  R and K stand for the
radius and weights of the discrete Gaussian kernel scipy derives from the
resolved blur_sigma.  The result is ok none when the AlphaDriven
short-circuit prints and returns without writing any output image. -/
def pad_image {h w : ℕ} (data : Image h w) (radius : Option ℕ) (blur_sigma : Option ℚ)
    (autoParams : Bool) (mode : MaskMode) (R : ℕ) (K : ℤ → ℤ → ℚ) :
    Except PadError (Option (PadOutput h w)) :=
  let r := (resolveParams w h radius blur_sigma autoParams).1
  match mode with
  | MaskMode.externalMask mh mw mimg =>
    match load_mask_image mh mw mimg h w with
    | Except.error e => Except.error e
    | Except.ok mask =>
      let ff := flood_fill_pad (smooth_pad data mask r) mask
      Except.ok (some ⟨imgRGB ff, some (fun _ _ => 255)⟩)
  | MaskMode.alphaDriven =>
    if ∀ i j, data i j 3 = 255 then Except.ok none
    else
      let mask : Mask h w := fun i j => decide (data i j 3 = 255)
      let ff := flood_fill_pad (smooth_pad (zeroTransparent data) mask r) mask
      Except.ok (some ⟨imgRGB ff, alpha_fade R K (fun i j => data i j 3)⟩)

/-- Whether a run ended in an error. -/
def isError {h w : ℕ} (r : Except PadError (Option (PadOutput h w))) : Bool :=
  match r with
  | Except.error _ => true
  | Except.ok _ => false

/-- Whether a run produced an output image. -/
def isSomeOutput {h w : ℕ} (r : Except PadError (Option (PadOutput h w))) : Bool :=
  match r with
  | Except.ok (some _) => true
  | _ => false

/-- RGB channel of the produced output at a pixel, when an output exists. -/
def resultRGBAt {h w : ℕ} (r : Except PadError (Option (PadOutput h w)))
    (i : Fin h) (j : Fin w) (c : Fin 3) : Option ℕ :=
  match r with
  | Except.ok (some o) => some (o.rgb i j c)
  | _ => none

/-- Alpha of the produced output at a pixel, when an output exists and the
alpha is defined. -/
def resultAlphaAt {h w : ℕ} (r : Except PadError (Option (PadOutput h w)))
    (i : Fin h) (j : Fin w) : Option ℕ :=
  match r with
  | Except.ok (some o) => o.alpha.map (fun a => a i j)
  | _ => none

/-- Trivial one-point kernel, used to instantiate kernel-generic theorems at
concrete inputs (it is the discrete Gaussian kernel for sigma < 0.125). -/
def K1 : ℤ → ℤ → ℚ := fun _ _ => 1

/-- Witness image for C1: 2 by 2, pixel (0,0) opaque red. -/
def d1 : Image 2 2 := fun i j c =>
  if i.val = 0 ∧ j.val = 0 then
    (if c.val = 0 then 250 else if c.val = 3 then 255 else 20)
  else 0

/-- Witness mask for C1: only (0,0) valid. -/
def mask1 : Mask 2 2 := fun i j => decide (i.val = 0 ∧ j.val = 0)

/-- Counterexample image for C2: one pixel, RGB (7, 8, 9), alpha 5. -/
def d2 : Image 1 1 := fun _ _ c =>
  if c.val = 0 then 7 else if c.val = 1 then 8 else if c.val = 2 then 9 else 5

/-- Counterexample mask for C2: the single pixel is invalid. -/
def m2 : Mask 1 1 := fun _ _ => false

/-- Failing input for C3: a 2 by 2 image whose every pixel has alpha 128. -/
def alpha128 : Fin 2 → Fin 2 → ℕ := fun _ _ => 128

/-- Witness alpha for C4: a single fully transparent pixel. -/
def alphaZero : Fin 1 → Fin 1 → ℕ := fun _ _ => 0

/-- Failing input for C5: one pixel, RGB (7, 8, 9), alpha 5. -/
def d5 : Image 1 1 := fun _ _ c =>
  if c.val = 0 then 7 else if c.val = 1 then 8 else if c.val = 2 then 9 else 5

/-- Failing external mask for C5: all zero, so no pixel is valid. -/
def mimg5 : Fin 1 → Fin 1 → ℕ := fun _ _ => 0

/-- Counterexample image for C6: one pixel, fully opaque. -/
def d6 : Image 1 1 := fun _ _ c => if c.val = 3 then 255 else 42

/-- Witness image for C8: one gray pixel. -/
def d8 : Image 1 1 := fun _ _ _ => 100

/-- Witness external mask for C8: 2 by 1, mismatching the 1 by 1 image. -/
def mimg8 : Fin 2 → Fin 1 → ℕ := fun _ _ => 200

/-- Scenario image for C9: 3 by 3, only the center valid, with RGB
(200, 50, 10) there and zeroed RGB elsewhere. -/
def data9 : Image 3 3 := fun i j c =>
  if i.val = 1 ∧ j.val = 1 then
    (if c.val = 0 then 200 else if c.val = 1 then 50 else if c.val = 2 then 10 else 255)
  else 0

/-- Scenario mask for C9: only the center is valid. -/
def mask9 : Mask 3 3 := fun i j => decide (i.val = 1 ∧ j.val = 1)

/-- Expected uniform RGB for C9. -/
def rgb9 : Fin 3 → ℕ := fun c => if c.val = 0 then 200 else if c.val = 1 then 50 else 10

/-- C1: for every image, validity mask and radius, at every pixel where the
mask is true every channel (in particular the RGB) is unchanged both by the
weighted-average fill alone and by the nearest-valid-pixel fill applied to
its result: neither stage ever overwrites a valid pixel. -/
theorem spec_C1_valid_pixel_invariance {h w : ℕ} (data : Image h w) (mask : Mask h w)
    (r : ℕ) (i : Fin h) (j : Fin w) (c : Fin 4) (hm : mask i j = true) :
    smooth_pad data mask r i j c = data i j c ∧
    flood_fill_pad (smooth_pad data mask r) mask i j c = data i j c := by
  have hs : smooth_pad data mask r i j c = data i j c := by
    unfold smooth_pad
    by_cases hc : c.val = 3
    · simp [hc]
    · simp [hc, hm]
  refine ⟨hs, ?_⟩
  unfold flood_fill_pad
  by_cases hc : c.val = 3
  · simp [hc, hs]
  · simp [hc, hm, hs]

/-- C1 witness: at the concrete 2 by 2 image d1 with mask1 valid at (0,0),
radius 1, channel 0, the valid pixel keeps its value through both stages. -/
theorem spec_C1_witness :
    mask1 0 0 = true ∧
    (smooth_pad d1 mask1 1 0 0 0 = d1 0 0 0 ∧
      flood_fill_pad (smooth_pad d1 mask1 1) mask1 0 0 0 = d1 0 0 0) :=
  ⟨by decide, spec_C1_valid_pixel_invariance d1 mask1 1 0 0 0 (by decide)⟩

/-- C2 counterexample: at the 1 by 1 image d2 with all-invalid mask m2 and
radius 1 the window of the single pixel contains no valid pixel (weight sum
0), yet smooth_pad does not leave the red channel at its current value 7: it
writes 0 (np.divide with out=np.zeros_like). -/
theorem spec_C2_counterexample :
    m2 0 0 = false ∧ weightSum m2 1 0 0 = 0 ∧ d2 0 0 0 = 7 ∧
    smooth_pad d2 m2 1 0 0 0 = 0 ∧ smooth_pad d2 m2 1 0 0 0 ≠ d2 0 0 0 := by
  decide

/-- C2 amended: in the weighted-average fill, an invalid pixel whose window
contains no valid pixel (weight sum 0) has its RGB channels set to 0, which
coincides with its current value only when that value was already 0 (as
after the AlphaDriven zeroing step), not in general. -/
theorem spec_C2_weight_zero_writes_zero {h w : ℕ} (data : Image h w) (mask : Mask h w)
    (r : ℕ) (i : Fin h) (j : Fin w) (c : Fin 3) (hm : mask i j = false)
    (h0 : weightSum mask r i j = 0) :
    smooth_pad data mask r i j (rgbIdx c) = 0 := by
  have hc : (rgbIdx c).val ≠ 3 := by
    have := c.isLt
    simp only [rgbIdx]
    omega
  unfold smooth_pad
  simp [hc, hm, h0]

/-- C2 witness: the amended statement at the concrete input d2, m2,
radius 1, channel 0. -/
theorem spec_C2_witness :
    m2 0 0 = false ∧ weightSum m2 1 0 0 = 0 ∧ smooth_pad d2 m2 1 0 0 (rgbIdx 0) = 0 :=
  ⟨by decide, by decide,
    spec_C2_weight_zero_writes_zero d2 m2 1 0 0 0 (by decide) (by decide)⟩

/-- C9: on the 3 by 3 image whose only valid pixel is the center with RGB
(200, 50, 10), with radius 1, the weighted-average fill followed by the
nearest-valid-pixel fill yields RGB (200, 50, 10) uniformly at every
pixel. -/
theorem spec_C9_concrete_3x3 :
    ∀ (i j : Fin 3) (c : Fin 3),
      flood_fill_pad (smooth_pad data9 mask9 1) mask9 i j (rgbIdx c) = rgb9 c := by
  decide

/-- C10: for every image, mask and radius, both the weighted-average fill
and the nearest-valid-pixel fill leave the alpha channel (index 3) of every
pixel exactly equal to its input value: only the RGB channels are ever
written. -/
theorem spec_C10_alpha_untouched {h w : ℕ} (data : Image h w) (mask : Mask h w)
    (r : ℕ) (i : Fin h) (j : Fin w) :
    smooth_pad data mask r i j 3 = data i j 3 ∧
    flood_fill_pad data mask i j 3 = data i j 3 := by
  have h3 : (3 : Fin 4).val = 3 := rfl
  constructor
  · unfold smooth_pad
    rw [if_pos h3]
  · unfold flood_fill_pad
    rw [if_pos h3]

/-- C5 evaluation at the failing input: with an external all-zero mask over
the 1 by 1 image d5 (zero valid pixels in the whole image) the pipeline does
not raise an error; it produces an output image whose RGB is 0 at every
pixel (black) with alpha 255, instead of raising. -/
theorem spec_C5_black_image_no_error :
    isError (pad_image d5 none none false (MaskMode.externalMask 1 1 mimg5) 0 K1) = false ∧
    (∀ (i j : Fin 1) (c : Fin 3),
      resultRGBAt (pad_image d5 none none false (MaskMode.externalMask 1 1 mimg5) 0 K1)
        i j c = some 0) ∧
    (∀ i j : Fin 1,
      resultAlphaAt (pad_image d5 none none false (MaskMode.externalMask 1 1 mimg5) 0 K1)
        i j = some 255) := by
  refine ⟨by decide, by decide, by decide⟩

/-- C6 counterexample: at the concrete fully opaque 1 by 1 image d6 in
AlphaDriven mode the run is a success (no error) but produces no output
image at all (the source prints a message and returns before writing), so
it does not return the input image unchanged. -/
theorem spec_C6_counterexample :
    isSomeOutput (pad_image d6 none none false MaskMode.alphaDriven 0 K1) = false ∧
    isError (pad_image d6 none none false MaskMode.alphaDriven 0 K1) = false := by
  decide

/-- C6 amended: in AlphaDriven mode, when every pixel has alpha 255 the
pipeline short-circuits as a no-op success: no error is raised and no fill
or fade stage runs, but no output image is emitted (the source returns
without writing a file) rather than the input image being returned
unchanged. -/
theorem spec_C6_noop_short_circuit {h w : ℕ} (data : Image h w) (radius : Option ℕ)
    (blur_sigma : Option ℚ) (autoParams : Bool) (R : ℕ) (K : ℤ → ℤ → ℚ)
    (hall : ∀ i j, data i j 3 = 255) :
    pad_image data radius blur_sigma autoParams MaskMode.alphaDriven R K =
      Except.ok none := by
  unfold pad_image
  dsimp only
  rw [if_pos hall]

/-- C6 witness: the amended statement at the concrete fully opaque image
d6. -/
theorem spec_C6_witness :
    (∀ i j : Fin 1, d6 i j 3 = 255) ∧
    pad_image d6 none none false MaskMode.alphaDriven 0 K1 = Except.ok none :=
  ⟨by decide, spec_C6_noop_short_circuit d6 none none false 0 K1 (by decide)⟩

/-- C8: in ExternalMask mode, whenever the external mask dimensions differ
from the image dimensions the pipeline fails with the mask-size-mismatch
error; no output image is produced, so no pixel is processed or modified. -/
theorem spec_C8_mask_size_mismatch {h w : ℕ} (data : Image h w) (radius : Option ℕ)
    (blur_sigma : Option ℚ) (autoParams : Bool) (R : ℕ) (K : ℤ → ℤ → ℚ)
    (mh mw : ℕ) (mimg : Fin mh → Fin mw → ℕ) (hne : mh ≠ h ∨ mw ≠ w) :
    pad_image data radius blur_sigma autoParams (MaskMode.externalMask mh mw mimg) R K =
      Except.error PadError.maskSizeMismatch := by
  have hd : ¬(mh = h ∧ mw = w) := by tauto
  unfold pad_image load_mask_image
  dsimp only
  rw [dif_neg hd]

/-- C8 witness: a 2 by 1 external mask against a 1 by 1 image fails with the
mask-size-mismatch error. -/
theorem spec_C8_witness :
    ((2 : ℕ) ≠ 1 ∨ (1 : ℕ) ≠ 1) ∧
    pad_image d8 none none false (MaskMode.externalMask 2 1 mimg8) 0 K1 =
      Except.error PadError.maskSizeMismatch :=
  ⟨Or.inl (by decide),
    spec_C8_mask_size_mismatch d8 none none false 0 K1 2 1 mimg8 (Or.inl (by decide))⟩

/-- Reflect lookup of the zero field is zero. -/
theorem reflectGet_zero {h w : ℕ} (i j : ℤ) :
    reflectGet (fun (_ : Fin h) (_ : Fin w) => (0 : ℚ)) i j = 0 := by
  unfold reflectGet
  split
  · split
    · rfl
    · rfl
  · rfl

/-- Blur of the zero field is zero, for every kernel. -/
theorem gaussian_filter_zero {h w : ℕ} (R : ℕ) (K : ℤ → ℤ → ℚ)
    (i : Fin h) (j : Fin w) :
    gaussian_filter R K (fun (_ : Fin h) (_ : Fin w) => (0 : ℚ)) i j = 0 := by
  unfold gaussian_filter
  refine List.sum_eq_zero ?_
  intro x hx
  simp only [List.mem_map] at hx
  obtain ⟨di, _, rfl⟩ := hx
  refine List.sum_eq_zero ?_
  intro y hy
  simp only [List.mem_map] at hy
  obtain ⟨dj, _, rfl⟩ := hy
  rw [reflectGet_zero, mul_zero]

/-- Left fold of min over a list of copies of the start value. -/
theorem foldl_min_const (l : List ℚ) (x : ℚ) (hl : ∀ y ∈ l, y = x) :
    l.foldl min x = x := by
  induction l with
  | nil => rfl
  | cons a t ih =>
    have ha : a = x := hl a (List.mem_cons_self a t)
    have ht : ∀ y ∈ t, y = x := fun y hy => hl y (List.mem_cons_of_mem a hy)
    simp only [List.foldl_cons, ha, min_self]
    exact ih ht

/-- Left fold of max over a list of copies of the start value. -/
theorem foldl_max_const (l : List ℚ) (x : ℚ) (hl : ∀ y ∈ l, y = x) :
    l.foldl max x = x := by
  induction l with
  | nil => rfl
  | cons a t ih =>
    have ha : a = x := hl a (List.mem_cons_self a t)
    have ht : ∀ y ∈ t, y = x := fun y hy => hl y (List.mem_cons_of_mem a hy)
    simp only [List.foldl_cons, ha, max_self]
    exact ih ht

/-- The grid minimum of a pointwise-zero field is zero. -/
theorem gridMin_of_zero {h w : ℕ} (f : Fin h → Fin w → ℚ)
    (hf : ∀ i j, f i j = 0) : gridMin f = 0 := by
  unfold gridMin
  have hv : ∀ y ∈ gridVals f, y = 0 := by
    intro y hy
    simp only [gridVals, List.mem_map] at hy
    obtain ⟨p, _, rfl⟩ := hy
    exact hf p.1 p.2
  match hg : gridVals f with
  | [] => rfl
  | x :: xs =>
    have hx : x = 0 := hv x (by rw [hg]; exact List.mem_cons_self x xs)
    have hxs : ∀ y ∈ xs, y = 0 := fun y hy =>
      hv y (by rw [hg]; exact List.mem_cons_of_mem x hy)
    rw [hx]
    exact foldl_min_const xs 0 hxs

/-- The grid maximum of a pointwise-zero field is zero. -/
theorem gridMax_of_zero {h w : ℕ} (f : Fin h → Fin w → ℚ)
    (hf : ∀ i j, f i j = 0) : gridMax f = 0 := by
  unfold gridMax
  have hv : ∀ y ∈ gridVals f, y = 0 := by
    intro y hy
    simp only [gridVals, List.mem_map] at hy
    obtain ⟨p, _, rfl⟩ := hy
    exact hf p.1 p.2
  match hg : gridVals f with
  | [] => rfl
  | x :: xs =>
    have hx : x = 0 := hv x (by rw [hg]; exact List.mem_cons_self x xs)
    have hxs : ∀ y ∈ xs, y = 0 := fun y hy =>
      hv y (by rw [hg]; exact List.mem_cons_of_mem x hy)
    rw [hx]
    exact foldl_max_const xs 0 hxs

/-- When no pixel is fully opaque the fade input field is pointwise zero. -/
theorem fadeField_of_transparent {h w : ℕ} (alpha : Fin h → Fin w → ℕ)
    (ha : ∀ i j, alpha i j < 255) (i : Fin h) (j : Fin w) :
    fadeField alpha i j = 0 := by
  unfold fadeField
  rw [if_pos (ha i j)]
  norm_num

/-- C3 evaluation at the failing input: on the 2 by 2 image whose every
pixel has alpha 128 (all transparent, so the AlphaDriven short-circuit does
not fire), the blurred field is identically zero for every kernel, so
max - min = 0 and the normalization computes 0 / 0: the faded alpha is
undefined (NaN bytes after the uint8 cast) rather than being at least the
original alpha 128 at every pixel. -/
theorem spec_C3_degenerate_fade_undefined (R : ℕ) (K : ℤ → ℤ → ℚ) :
    alpha_fade R K alpha128 = none := by
  have hfield : ∀ (i j : Fin 2), fadeField alpha128 i j = 0 :=
    fadeField_of_transparent alpha128 (fun _ _ => by norm_num [alpha128])
  have hdist : ∀ (i j : Fin 2), fadeDistance R K alpha128 i j = 0 := by
    intro i j
    unfold fadeDistance
    have hfun : fadeField alpha128 = fun _ _ => (0 : ℚ) := by
      funext a b
      exact hfield a b
    rw [hfun]
    exact gaussian_filter_zero R K i j
  unfold alpha_fade
  rw [gridMax_of_zero _ hdist, gridMin_of_zero _ hdist]
  norm_num

/-- C4: whenever the blurred field is constant over the grid (its grid
maximum equals its grid minimum) the source has no guard: the elementwise
normalization computes 0 / 0 = NaN, np.clip and np.maximum propagate it and
the uint8 cast of NaN is platform-undefined, so the faded alpha is
undefined (modelled as none) instead of the original alpha. -/
theorem spec_C4_no_degenerate_guard {h w : ℕ} (R : ℕ) (K : ℤ → ℤ → ℚ)
    (alpha : Fin h → Fin w → ℕ)
    (hconst : gridMax (fadeDistance R K alpha) = gridMin (fadeDistance R K alpha)) :
    alpha_fade R K alpha = none := by
  unfold alpha_fade
  rw [hconst, sub_self]
  norm_num

/-- C4 witness: on a single fully transparent pixel with the one-point
kernel, the blurred field is constant and the fade output is undefined. -/
theorem spec_C4_witness :
    gridMax (fadeDistance 0 K1 alphaZero) = gridMin (fadeDistance 0 K1 alphaZero) ∧
    alpha_fade 0 K1 alphaZero = none :=
  ⟨rfl, spec_C4_no_degenerate_guard 0 K1 alphaZero rfl⟩

/-- Round-half-even is at most one half above its argument. -/
theorem roundHalfEven_le (q : ℚ) : (roundHalfEven q : ℚ) ≤ q + 1 / 2 := by
  unfold roundHalfEven
  by_cases hf : q - ⌊q⌋ = 1 / 2
  · have hfl : (⌊q⌋ : ℚ) = q - 1 / 2 := by linarith
    by_cases he : ⌊q⌋ % 2 = 0
    · rw [if_pos hf, if_pos he]
      linarith
    · rw [if_pos hf, if_neg he]
      push_cast
      linarith
  · rw [if_neg hf]
    have hab := abs_sub_round q
    rw [abs_le] at hab
    linarith [hab.1]

/-- Round-half-even is at least one half below its argument. -/
theorem le_roundHalfEven (q : ℚ) : q - 1 / 2 ≤ (roundHalfEven q : ℚ) := by
  unfold roundHalfEven
  by_cases hf : q - ⌊q⌋ = 1 / 2
  · have hfl : (⌊q⌋ : ℚ) = q - 1 / 2 := by linarith
    by_cases he : ⌊q⌋ % 2 = 0
    · rw [if_pos hf, if_pos he]
      linarith
    · rw [if_pos hf, if_neg he]
      push_cast
      linarith
  · rw [if_neg hf]
    have hab := abs_sub_round q
    rw [abs_le] at hab
    linarith [hab.2]

/-- Round-half-even fixes the integers. -/
theorem roundHalfEven_intCast (n : ℤ) : roundHalfEven (n : ℚ) = n := by
  unfold roundHalfEven
  rw [Int.floor_intCast]
  rw [if_neg (by rw [sub_self]; norm_num)]
  exact round_intCast n

/-- Clamping to [1, 10] before rounding to one decimal equals rounding first
and clamping after: the bounds 1.0 and 10.0 are fixed points of the rounding
and the rounding moves a value by at most 0.05.  This reconciles the order
of operations of the source (clamp, then round) with that of the
specification formula (round, then clamp). -/
theorem sigma_clamp_round_comm (v : ℚ) :
    (roundHalfEven (10 * clampQ 1 10 v) : ℚ) / 10 =
      clampQ 1 10 ((roundHalfEven (10 * v) : ℚ) / 10) := by
  have hub := roundHalfEven_le (10 * v)
  have hlb := le_roundHalfEven (10 * v)
  rcases le_total v 1 with hv1 | hv1
  · have hcl : clampQ 1 10 v = 1 := by
      unfold clampQ
      rw [max_eq_left hv1, min_eq_right (by norm_num : (1 : ℚ) ≤ 10)]
    rw [hcl]
    have h10 : roundHalfEven ((10 : ℚ) * 1) = 10 := by
      rw [mul_one, show (10 : ℚ) = ((10 : ℤ) : ℚ) by norm_num, roundHalfEven_intCast]
    rw [h10]
    have ht : roundHalfEven (10 * v) ≤ 10 := by
      have h2 : ((roundHalfEven (10 * v) : ℤ) : ℚ) < 11 := by linarith
      have h3 : (roundHalfEven (10 * v) : ℤ) < 11 := by exact_mod_cast h2
      omega
    have ht2 : ((roundHalfEven (10 * v) : ℤ) : ℚ) / 10 ≤ 1 := by
      rw [div_le_one (by norm_num : (0 : ℚ) < 10)]
      exact_mod_cast ht
    unfold clampQ
    rw [max_eq_left ht2, min_eq_right (by norm_num : (1 : ℚ) ≤ 10)]
    norm_num
  · rcases le_total 10 v with hv10 | hv10
    · have hcl : clampQ 1 10 v = 10 := by
        unfold clampQ
        rw [max_eq_right (le_trans (by norm_num) hv10), min_eq_left hv10]
      rw [hcl]
      have h100 : roundHalfEven ((10 : ℚ) * 10) = 100 := by
        rw [show (10 : ℚ) * 10 = ((100 : ℤ) : ℚ) by norm_num, roundHalfEven_intCast]
      rw [h100]
      have ht : (100 : ℤ) ≤ roundHalfEven (10 * v) := by
        have h2 : (99 : ℚ) < ((roundHalfEven (10 * v) : ℤ) : ℚ) := by linarith
        have h3 : (99 : ℤ) < roundHalfEven (10 * v) := by exact_mod_cast h2
        omega
      have ht2 : (10 : ℚ) ≤ ((roundHalfEven (10 * v) : ℤ) : ℚ) / 10 := by
        rw [le_div_iff₀ (by norm_num : (0 : ℚ) < 10)]
        have h4 : (100 : ℚ) ≤ ((roundHalfEven (10 * v) : ℤ) : ℚ) := by exact_mod_cast ht
        linarith
      unfold clampQ
      rw [max_eq_right (le_trans (by norm_num) ht2), min_eq_left ht2]
      norm_num
    · have hcl : clampQ 1 10 v = v := by
        unfold clampQ
        rw [max_eq_right hv1, min_eq_right hv10]
      rw [hcl]
      have ht1 : (10 : ℤ) ≤ roundHalfEven (10 * v) := by
        have h2 : (9 : ℚ) < ((roundHalfEven (10 * v) : ℤ) : ℚ) := by linarith
        have h3 : (9 : ℤ) < roundHalfEven (10 * v) := by exact_mod_cast h2
        omega
      have ht2 : roundHalfEven (10 * v) ≤ (100 : ℤ) := by
        have h2 : ((roundHalfEven (10 * v) : ℤ) : ℚ) < 101 := by linarith
        have h3 : (roundHalfEven (10 * v) : ℤ) < 101 := by exact_mod_cast h2
        omega
      have hl : (1 : ℚ) ≤ ((roundHalfEven (10 * v) : ℤ) : ℚ) / 10 := by
        rw [le_div_iff₀ (by norm_num : (0 : ℚ) < 10)]
        have h4 : (10 : ℚ) ≤ ((roundHalfEven (10 * v) : ℤ) : ℚ) := by exact_mod_cast ht1
        linarith
      have hu : ((roundHalfEven (10 * v) : ℤ) : ℚ) / 10 ≤ 10 := by
        rw [div_le_iff₀ (by norm_num : (0 : ℚ) < 10)]
        have h4 : ((roundHalfEven (10 * v) : ℤ) : ℚ) ≤ 100 := by exact_mod_cast ht2
        linarith
      unfold clampQ
      rw [max_eq_right hl, min_eq_right hu]

/-- C7: for every positive longer side maxDim = max(w, h), the auto-tuner
returns exactly radius = max(2, floor(maxDim / 512 * 3)) and
sigma = clamp(round(maxDim / 1024 * 3, 1 decimal), 1.0, 10.0), and repeated
calls with equal input yield identical results (the function is pure). -/
theorem spec_C7_auto_params (w h : ℕ) (hpos : 0 < max w h) :
    auto_set_params w h = auto_params_spec (max w h) ∧
    auto_set_params w h = auto_set_params w h := by
  refine ⟨?_, rfl⟩
  unfold auto_set_params auto_params_spec
  dsimp only
  rw [Prod.mk.injEq]
  constructor
  · rw [show ((max w h : ℕ) : ℚ) / 512 * 3 = ((3 * max w h : ℕ) : ℚ) / ((512 : ℕ) : ℚ) by
      push_cast; ring]
    rw [Nat.floor_div_nat, Nat.floor_natCast]
  · exact sigma_clamp_round_comm (((max w h : ℕ) : ℚ) / 1024 * 3)

/-- C7 witness: the auto-tuner at a 1024 by 512 image matches the
specification formula at maxDim = 1024. -/
theorem spec_C7_witness :
    0 < max 1024 512 ∧
    (auto_set_params 1024 512 = auto_params_spec (max 1024 512) ∧
      auto_set_params 1024 512 = auto_set_params 1024 512) :=
  ⟨by decide, spec_C7_auto_params 1024 512 (by decide)⟩

end PadAlpha
